import Mathlib

/-!
Verification development for the pudding pipeline framework.

This file gives a shallow embedding of the core component-execution engine
(`src/pudding/core/base_component.py`), its data model
(`src/pudding/core/data_envelope.py`, `src/pudding/core/config.py`) and the
example text-cleaning component (`examples/text_pipeline/components.py`),
together with theorems settling the specification claims about them.

Modelling conventions:
- Python `str` is modelled by `String`; string operations that the Lean core
  library implements non-reducibly (split, lower, ...) are re-implemented
  over `List Char`.
- Python `dict[str, Any]` payloads are modelled by association lists of
  `PyValue`, a JSON-like value type that also has a tuple constructor so the
  tuple-vs-list behaviour of `json.dump` is expressible.
- `datetime` instants are modelled by `Nat`; `isoformat`/`strftime` become
  injective renderings of the instant, and round-tripping an instant through
  its string form is value-preserving, exactly as for `datetime`.
- The filesystem (the per-component sample directories) is modelled by an
  explicit list of file entries threaded through the functions that touch it;
  a file's content is the parsed form of the JSON document written to it.
- `raise`/`except` are modelled with `Except String`; the single `try/except`
  in `BaseComponent.run` becomes the final `match` of `run` on `runCore`.
-/

namespace Pudding

/-! ### Python string and truthiness helpers -/

/-- Model of Python `a or b` for `a : Optional[str]`: `None` and `""` are falsy. -/
def pyOrStr (a : Option String) (d : String) : String :=
  match a with
  | none => d
  | some s => if s = "" then d else s

/-- Model of Python truthiness of an `Optional[str]`. -/
def pyTruthyStr (a : Option String) : Bool :=
  match a with
  | none => false
  | some s => s != ""

/-- Model of an f-string interpolation of an `Optional[str]` (`None` prints "None"). -/
def pyReprOptStr (a : Option String) : String :=
  match a with
  | none => "None"
  | some s => s

/-- Whitespace characters recognised by Python `str.split()` and `re` `\s`
(the ASCII ones, which are the only ones the example data exercises). -/
def pyWs (c : Char) : Bool :=
  c == ' ' || c == '\t' || c == '\n' || c == '\r' || c == '\x0b' || c == '\x0c'

/-- Helper for `pySplitWs`: accumulate maximal runs of non-whitespace. -/
def splitWsAux (cur : List Char) (acc : List (List Char)) : List Char → List (List Char)
  | [] => acc ++ (if cur = [] then [] else [cur])
  | c :: cs =>
    if pyWs c then
      splitWsAux [] (acc ++ (if cur = [] then [] else [cur])) cs
    else
      splitWsAux (cur ++ [c]) acc cs

/-- Model of Python `str.split()` with no argument: split on whitespace runs,
dropping empty pieces. -/
def pySplitWs (s : String) : List String :=
  (splitWsAux [] [] s.data).map String.mk

/-- Helper for `pyJoinSpace`. -/
def joinSpaceAux : List (List Char) → List Char
  | [] => []
  | [x] => x
  | x :: y :: rest => x ++ ' ' :: joinSpaceAux (y :: rest)

/-- Model of Python `" ".join(xs)`. -/
def pyJoinSpace (xs : List String) : String :=
  String.mk (joinSpaceAux (xs.map String.data))

/-- Model of Python `str.lower()` (ASCII case mapping, which is what the
example data exercises). -/
def pyLower (s : String) : String := String.mk (s.data.map Char.toLower)

/-- Model of `re.sub(r"[^a-z0-9\s]", "", s)`: keep only lowercase letters,
digits and whitespace. -/
def keepLowerAlnumWs (s : String) : String :=
  String.mk (s.data.filter (fun c =>
    ('a' ≤ c && c ≤ 'z') || ('0' ≤ c && c ≤ '9') || pyWs c))

/-! ### Data model (`data_envelope.py`, `config.py`) -/

/-- The `DataType` enum from `data_envelope.py`. -/
inductive DataType where
  | component_input
  | component_output
  | raw_data
deriving DecidableEq

/-- JSON-like model of Python values stored in `dict[str, Any]` payloads.
The tuple constructor is kept separate from the list constructor because
`json.dump` serialises tuples as JSON arrays, which `json.load` reads back
as lists. -/
inductive PyValue where
  | pyStr (s : String)
  | pyInt (n : Int)
  | pyBool (b : Bool)
  | pyNone
  | pyList (xs : List PyValue)
  | pyTuple (xs : List PyValue)
  | pyDict (kvs : List (String × PyValue))

/-- Model of a Python `dict[str, Any]` (insertion-ordered association list). -/
abbrev Payload := List (String × PyValue)

/-- One lineage record: the four-key string dict appended by
`BaseComponent._create_output_envelope`. -/
structure LineageRecord where
  component : String
  version : String
  timestamp : String
  execution_id : String
deriving DecidableEq

/-- Structure `DataEnvelope` from `data_envelope.py`.  The `timestamp := 0` default
stands for the `datetime.now(timezone.utc)` default factory; construction
sites in the engine pass the current instant explicitly. -/
structure DataEnvelope where
  envelope_version : String := "1.0"
  data_type : DataType
  component_name : Option String := none
  component_version : Option String := none
  data_tags : List String := []
  schema_name : Option String := none
  schema_version : Option String := none
  execution_id : Option String := none
  timestamp : Nat := 0
  source_info : Option Payload := none
  lineage : List LineageRecord := []
  data : Payload

/-- Structure `ComponentMetadata` from `data_envelope.py`. -/
structure ComponentMetadata where
  component_name : String
  component_version : String
  executed_at : Nat
  execution_id : Option String := none
  debug_mode : Bool := false
  input_source_type : Option String := none
  is_replay : Bool := false
  data_lineage : List LineageRecord := []
deriving DecidableEq

/-- Structure `ComponentResult` from `data_envelope.py`. -/
structure ComponentResult (O : Type) where
  data : Option O := none
  metadata : ComponentMetadata
  error : Option String := none
  warnings : List String := []
  envelope : Option DataEnvelope := none

/-- Structure `RunConfig` from `config.py`.  `save_samples` is the `SampleSaveMode`
flag bitset (`INPUT = 1`, `OUTPUT = 2`, `BOTH = 3`); `sample_name_pfx`
models the `sample_name_prefix` field.  Fields never read by the engine
(`source_info`, `timeout`, `max_retries`, `compress_samples`) are omitted. -/
structure RunConfig where
  debug_mode : Bool := false
  save_samples : Nat := 0
  execution_id : Option String := none
  skip_compatibility_check : Bool := false
  sample_name_pfx : Option String := none

/-! ### JSON serialisation (`json.dump` / `json.load` round trip) -/

mutual
/-- Effect of `json.load ∘ json.dump` on one payload value: tuples become
lists (JSON arrays); everything else is preserved. -/
def jsonNormV : PyValue → PyValue
  | .pyStr s => .pyStr s
  | .pyInt n => .pyInt n
  | .pyBool b => .pyBool b
  | .pyNone => .pyNone
  | .pyList xs => .pyList (jsonNormL xs)
  | .pyTuple xs => .pyList (jsonNormL xs)
  | .pyDict kvs => .pyDict (jsonNormKVs kvs)

/-- Function `jsonNormV` mapped over a list of values. -/
def jsonNormL : List PyValue → List PyValue
  | [] => []
  | v :: vs => jsonNormV v :: jsonNormL vs

/-- Function `jsonNormV` mapped over dict entries. -/
def jsonNormKVs : List (String × PyValue) → List (String × PyValue)
  | [] => []
  | (k, v) :: kvs => (k, jsonNormV v) :: jsonNormKVs kvs
end

/-- Effect of the JSON round trip on a payload. -/
def jsonNormPayload (p : Payload) : Payload := jsonNormKVs p

/-- Effect on an envelope of `json.dump(envelope.model_dump(), default=str)`
followed by `DataEnvelope(**json.load(f))`: enum values and datetimes
round-trip to equal values, strings and string-dict lineage records are
preserved, and the untyped payloads go through the JSON normalisation. -/
def jsonRoundTrip (e : DataEnvelope) : DataEnvelope :=
  { e with data := jsonNormPayload e.data,
           source_info := e.source_info.map jsonNormPayload }

/-! ### Sample store (`_save_sample`, `load_sample`, `_get_latest_envelope`) -/

/-- One file of a sample directory.  `content` is the parsed form of the JSON
document the file holds. -/
structure FileEntry where
  dir : String
  name : String
  mtime : Nat
  content : DataEnvelope

/-- The filesystem visible to the sample store. -/
abbrev FS := List FileEntry

/-- The decimal digit character for `d < 10`. -/
def digitChar (d : Nat) : Char := Char.ofNat (48 + d)

/-- Fuelled helper for `natDigits` (fuel keeps the recursion structural, so
that the kernel can evaluate it; `n + 1` fuel always suffices). -/
def natDigitsAux : Nat → Nat → List Char
  | 0, _ => []
  | fuel + 1, n =>
    if n < 10 then [digitChar n]
    else natDigitsAux fuel (n / 10) ++ [digitChar (n % 10)]

/-- Decimal digits of a natural number, most significant first. -/
def natDigits (n : Nat) : List Char := natDigitsAux (n + 1) n

/-- Model of Python `f"{n:03d}"`: decimal rendering zero-padded to width 3. -/
def pad3 (n : Nat) : String :=
  String.mk (List.replicate (3 - (natDigits n).length) '0' ++ natDigits n)

/-- Numeric value of a digit character (inverse of `digitChar`). -/
def charVal (c : Char) : Nat := c.toNat - 48

/-- Value of a digit string read from initial accumulator `a` (used to invert
`pad3`: leading zeros do not change the value). -/
def strValFrom (a : Nat) (cs : List Char) : Nat :=
  cs.foldl (fun x c => 10 * x + charVal c) a

/-- Numeric value of a digit string. -/
def strVal (cs : List Char) : Nat := strValFrom 0 cs

/-- Model of `datetime.now().strftime("%Y%m%d_%H%M%S_%f")[:-3]`: an injective
rendering of the current instant. -/
def fileTimestamp (now : Nat) : String := String.mk (natDigits now)

/-- Model of `datetime.isoformat()`: an injective rendering of the instant. -/
def isoformat (t : Nat) : String := String.mk (natDigits t)

/-- The filename tried for collision counter `n` in `_save_sample`:
`base.json` for `n = 0`, `base_NNN.json` (zero-padded) afterwards. -/
def candidate (base : String) : Nat → String
  | 0 => base ++ ".json"
  | n + 1 => base ++ "_" ++ pad3 (n + 1) ++ ".json"

/-- The `while True` collision loop of `_save_sample`, with explicit fuel. -/
def findFreeAux (taken : List String) (base : String) : Nat → Nat → Option String
  | 0, _ => none
  | fuel + 1, n =>
    if candidate base n ∈ taken then findFreeAux taken base fuel (n + 1)
    else some (candidate base n)

/-- The filename chosen by the collision loop: the first `candidate base n`
(for `n = 0, 1, 2, ...`) that is not already taken.  `taken.length + 1` fuel
always suffices (`findFreeAux_isSome`), so the `getD` default is never used. -/
def findFreeName (taken : List String) (base : String) : String :=
  (findFreeAux taken base (taken.length + 1) 0).getD (candidate base 0)

/-- The filenames already present in one component's sample directory. -/
def takenNames (dir : String) (fs : FS) : List String :=
  (fs.filter (fun e => e.dir == dir)).map (fun e => e.name)

/-- Largest modification time in the filesystem. -/
def maxMtime (fs : FS) : Nat := fs.foldl (fun a e => max a e.mtime) 0

/-- Modification time stamped onto a newly written file: strictly newer than
every existing file. -/
def nextMtime (fs : FS) : Nat := maxMtime fs + 1

/-- Model of matching the glob pattern `pre*.json` against a filename. -/
def globNameMatches (pre : String) (name : String) : Bool :=
  pre.data.isPrefixOf name.data
    && ".json".data.isSuffixOf name.data
    && decide (pre.length + 5 ≤ name.length)

/-- Model of `BaseComponent.load_sample`: absolute filenames are used as-is, relative
ones resolve inside `dir`; a missing file raises `FileNotFoundError`. -/
def loadSample (dir : String) (filename : String) (fs : FS) : Except String DataEnvelope :=
  match (if "/".data.isPrefixOf filename.data
         then fs.find? (fun e => e.dir ++ "/" ++ e.name == filename)
         else fs.find? (fun e => e.dir == dir && e.name == filename)) with
  | none => .error ("Sample file not found: " ++ filename)
  | some e => .ok e.content

/-- Python `max(files, key=mtime)`: keeps the first maximal element. -/
def latestBy (acc : FileEntry) : List FileEntry → FileEntry
  | [] => acc
  | e :: es => latestBy (if acc.mtime < e.mtime then e else acc) es

/-- Model of `BaseComponent._get_latest_envelope`: glob `input_*.json` or
`output_*.json` in the component's directory, take the file with the newest
mtime, and load it. -/
def getLatestEnvelope (dir : String) (dt : DataType) (fs : FS) : Option DataEnvelope :=
  match fs.filter (fun e => e.dir == dir
      && globNameMatches (if dt = DataType.component_input then "input_" else "output_")
           e.name) with
  | [] => none
  | e :: es => some (latestBy e es).content

/-! ### The component engine (`base_component.py`) -/

/-- A pipeline component: the data `BaseComponent.__init__` stores plus the
behaviour of the overridable hooks.  `validateInput` models
`input_schema(**d)` (pydantic validation), `dumpOutput` models
`model_dump()`; `prepareInput` and `process` are user code and may fail
(raise).  `prepareInputName` models `self.prepare_input.__name__`: the
inherited hook is named `"prepare_input"`, and an ordinary
`def prepare_input` override bears that very same name, so this field
differs from `"prepare_input"` only when the attribute was assigned a
function defined under another name. -/
structure Component (I O : Type) where
  name : String
  version : String
  inputSchemaName : String
  outputSchemaName : String
  sampleDataDir : String
  prepareInputName : String
  prepareInput : Payload → Except String Payload
  validateInput : Payload → Except String I
  process : I → Except String O
  dumpOutput : O → Payload

/-- The metadata record built at the start of `run` (lines 82–87). -/
def initMetadata (c : Component I O) (cfg : RunConfig) (now : Nat) : ComponentMetadata :=
  { component_name := c.name
    component_version := c.version
    executed_at := now
    debug_mode := cfg.debug_mode
    execution_id := some (pyOrStr cfg.execution_id "local_run") }

/-- Model of `BaseComponent.can_process` (lines 175–186).  Mirrors the Python
truthiness test `if envelope.schema_name and envelope.schema_name !=
expected`, and the override test
`self.prepare_input.__name__ != BaseComponent.prepare_input.__name__`
(line 180), whose right-hand side is the constant `"prepare_input"`. -/
def can_process (c : Component I O) (env : DataEnvelope) : Bool × Option String :=
  match env.schema_name with
  | some s =>
    if s ≠ "" ∧ s ≠ c.inputSchemaName then
      if c.prepareInputName ≠ "prepare_input" then
        (true, some "Will transform using prepare_input()")
      else
        (false, some ("Schema mismatch: expects " ++ c.inputSchemaName ++ ", got " ++ s))
    else (true, none)
  | none => (true, none)

/-- The lineage record appended by `_create_output_envelope` (lines 356–363). -/
def mkLineageRecord (c : Component I O) (md : ComponentMetadata) : LineageRecord :=
  { component := c.name
    version := c.version
    timestamp := isoformat md.executed_at
    execution_id := pyOrStr md.execution_id "" }

/-- Model of `BaseComponent._create_output_envelope` (lines 348–374): copy the input
lineage, append one record for this execution. -/
def createOutputEnvelope (c : Component I O) (out : O) (md : ComponentMetadata)
    (inputEnv : DataEnvelope) : DataEnvelope :=
  { data_type := .component_output
    component_name := some c.name
    component_version := some c.version
    schema_name := some c.outputSchemaName
    execution_id := md.execution_id
    timestamp := md.executed_at
    data := c.dumpOutput out
    lineage := inputEnv.lineage ++ [mkLineageRecord c md] }

/-- The envelope built by `_save_sample` (lines 258–269). -/
def mkSampleEnvelope (c : Component I O) (dt : DataType) (data : Payload)
    (md : ComponentMetadata) : DataEnvelope :=
  { data_type := dt
    component_name := some c.name
    component_version := some c.version
    schema_name := some (if dt = DataType.component_input
                         then c.inputSchemaName else c.outputSchemaName)
    execution_id := md.execution_id
    timestamp := md.executed_at
    data := data
    lineage := md.data_lineage }

/-- The base filename of `_save_sample` (lines 271–280):
`[pfx_]<input|output>_<timestamp>`; the caller-supplied part is used only if
truthy. -/
def sampleBaseName (dt : DataType) (pfx : Option String) (now : Nat) : String :=
  let typePre := if dt = DataType.component_input then "input" else "output"
  if pyTruthyStr pfx then pfx.getD "" ++ "_" ++ typePre ++ "_" ++ fileTimestamp now
  else typePre ++ "_" ++ fileTimestamp now

/-- The file written by `_save_sample`: fresh collision-free name, newest
mtime, content = the sample envelope as serialised to and re-read from JSON. -/
def saveEntry (c : Component I O) (dt : DataType) (data : Payload)
    (md : ComponentMetadata) (pfx : Option String) (now : Nat) (fs : FS) : FileEntry :=
  { dir := c.sampleDataDir
    name := findFreeName (takenNames c.sampleDataDir fs) (sampleBaseName dt pfx now)
    mtime := nextMtime fs
    content := jsonRoundTrip (mkSampleEnvelope c dt data md) }

/-- Model of `BaseComponent._save_sample` (lines 250–299) as a filesystem update. -/
def saveSample (c : Component I O) (dt : DataType) (data : Payload)
    (md : ComponentMetadata) (pfx : Option String) (now : Nat) (fs : FS) : FS :=
  saveEntry c dt data md pfx now fs :: fs

/-- The variant shapes `run` accepts for `input_source` (docstring lines
64–77 and the `isinstance` chain of `_normalize_to_envelope`).
`resultSrc` carries the fields `_normalize_to_envelope` reads from a
`ComponentResult` (its envelope, its dumped data, its metadata);
`componentSrc`/`tupleSrc` carry the other component's name and sample
directory; `tupleBadSrc` is a two-element tuple whose first element is not a
component; `otherSrc` is any unsupported shape (its Python type name is
carried for the error message). -/
inductive InputSource where
  | noneSrc
  | strSrc (s : String)
  | pathSrc (p : String)
  | envSrc (e : DataEnvelope)
  | resultSrc (envl : Option DataEnvelope) (dataDump : Option Payload) (md : ComponentMetadata)
  | componentSrc (cname : String) (cdir : String)
  | modelSrc (dump : Payload) (clsName : String)
  | dictSrc (d : Payload)
  | tupleSrc (cname cdir : String) (sampleName : String)
  | tupleBadSrc (tyName : String)
  | otherSrc (tyName : String)

/-- Model of `BaseComponent._get_source_type_name` (lines 376–391).  Note the source
tests `isinstance(_, BaseModel)` before `ComponentResult`/`DataEnvelope`
(both pydantic models), so those two report as models; `noneSrc` never
reaches this function (`run` handles `None` first) and would fall to
"unknown". -/
def getSourceTypeName : InputSource → String
  | .dictSrc _ => "dict"
  | .modelSrc _ cls => "model:" ++ cls
  | .resultSrc _ _ _ => "model:ComponentResult"
  | .envSrc _ => "model:DataEnvelope"
  | .componentSrc cname _ => "component:" ++ cname
  | .strSrc _ => "file"
  | .pathSrc _ => "file"
  | .noneSrc => "unknown"
  | .tupleSrc _ _ _ => "unknown"
  | .tupleBadSrc _ => "unknown"
  | .otherSrc _ => "unknown"

/-- Model of `BaseComponent._normalize_to_envelope` (lines 188–248).  `now` is the
current instant, used for the `datetime.now` default of freshly constructed
envelopes. -/
def normalizeToEnvelope (c : Component I O) (src : InputSource) (now : Nat)
    (fs : FS) : Except String DataEnvelope :=
  match src with
  | .strSrc s => loadSample c.sampleDataDir s fs
  | .pathSrc p => loadSample c.sampleDataDir p fs
  | .envSrc e => .ok e
  | .resultSrc (some envl) _ _ => .ok envl
  | .resultSrc none dataDump md =>
    .ok { data_type := .component_output
          component_name := some md.component_name
          component_version := some md.component_version
          data := dataDump.getD []
          execution_id := md.execution_id
          timestamp := md.executed_at
          lineage := md.data_lineage }
  | .componentSrc cname cdir =>
    match getLatestEnvelope cdir DataType.component_output fs with
    | none => .error ("No output samples found for " ++ cname)
    | some env => .ok env
  | .modelSrc dump clsName =>
    .ok { data_type := .raw_data, data := dump, schema_name := some clsName,
          timestamp := now }
  | .dictSrc d => .ok { data_type := .raw_data, data := d, timestamp := now }
  | .tupleSrc _ cdir sampleName => loadSample cdir sampleName fs
  | .tupleBadSrc tyName =>
    .error ("First element of tuple must be a BaseComponent, got " ++ tyName)
  | .noneSrc => .error ("Unsupported input source type: " ++ "NoneType")
  | .otherSrc tyName => .error ("Unsupported input source type: " ++ tyName)

/-- The body of `run` from line 103 onward (lineage copy, compatibility
check, input adaptation, validation, input-sample save, processing, output
envelope, output-sample save), given the resolved envelope.  Errors carry the
metadata and filesystem as they stand at the raise site. -/
def runAfterResolve (c : Component I O) (cfg : RunConfig) (now : Nat) (fs : FS)
    (md0 : ComponentMetadata) (env : DataEnvelope) :
    Except (ComponentMetadata × String × FS) (ComponentMetadata × O × DataEnvelope × FS) :=
  let md := { md0 with data_lineage := env.lineage }
  if ¬cfg.skip_compatibility_check ∧ (can_process c env).1 = false then
    .error (md, "Component " ++ c.name ++ " cannot process this data: "
                ++ pyReprOptStr (can_process c env).2, fs)
  else
    match c.prepareInput env.data with
    | .error e => .error (md, e, fs)
    | .ok transformed =>
      match c.validateInput transformed with
      | .error e => .error (md, e, fs)
      | .ok validated =>
        let fs1 := if cfg.save_samples &&& 1 ≠ 0
                   then saveSample c DataType.component_input transformed md
                          cfg.sample_name_pfx now fs
                   else fs
        match c.process validated with
        | .error e => .error (md, e, fs1)
        | .ok out =>
          let outEnv := createOutputEnvelope c out md env
          let fs2 := if cfg.save_samples &&& 2 ≠ 0
                     then saveSample c DataType.component_output (c.dumpOutput out) md
                            cfg.sample_name_pfx now fs1
                     else fs1
          .ok (md, out, outEnv, fs2)

/-- The `try` block of `BaseComponent.run` (lines 89–167): resolve the input
source (replay mode for `None`), then `runAfterResolve`. -/
def runCore (c : Component I O) (src : InputSource) (cfg : RunConfig) (now : Nat)
    (fs : FS) :
    Except (ComponentMetadata × String × FS) (ComponentMetadata × O × DataEnvelope × FS) :=
  let md := initMetadata c cfg now
  match src with
  | .noneSrc =>
    match getLatestEnvelope c.sampleDataDir DataType.component_input fs with
    | none => .error (md, "No saved inputs found for " ++ c.name, fs)
    | some env =>
      runAfterResolve c cfg now fs
        { md with is_replay := true, input_source_type := some "latest_saved_input" } env
  | _ =>
    match normalizeToEnvelope c src now fs with
    | .error e => .error (md, e, fs)
    | .ok env =>
      runAfterResolve c cfg now fs
        { md with input_source_type := some (getSourceTypeName src) } env

/-- Model of `BaseComponent.run` (lines 58–173): the catch-all `except` turns any
failure of the `try` block into a failure `ComponentResult`; success yields a
result carrying the validated output and the output envelope. -/
def run (c : Component I O) (src : InputSource) (cfg : RunConfig) (now : Nat)
    (fs : FS) : ComponentResult O × FS :=
  match runCore c src cfg now fs with
  | .error (md, msg, fs') =>
    ({ data := none, metadata := md,
       error := some ("Component " ++ c.name ++ " failed: " ++ msg) }, fs')
  | .ok (md, out, outEnv, fs') =>
    ({ data := some out, metadata := md, error := none, envelope := some outEnv }, fs')

/-! ### Example component: the text cleaner (`examples/text_pipeline/components.py`) -/

/-- The `TextInput` schema. -/
structure TextInput where
  text : String
  source : Option String
deriving DecidableEq

/-- The `CleanedText` schema. -/
structure CleanedText where
  text : String
  source : Option String
  changes_made : List String
deriving DecidableEq

/-- Model of `TextCleaner.process` (lines 67–89): whitespace normalisation,
lowercasing, special-character removal, recording a change tag for each step
whose guard fires. -/
def textCleanerProcess (input : TextInput) : CleanedText :=
  let original := input.text
  let cleaned1 := pyJoinSpace (pySplitWs original)
  let changes1 : List String :=
    if cleaned1 ≠ original then ["removed_extra_whitespace"] else []
  let cleaned2 := pyLower cleaned1
  let changes2 :=
    if cleaned2 ≠ pyLower original then changes1 ++ ["converted_to_lowercase"] else changes1
  let cleaned3 := keepLowerAlnumWs cleaned2
  let changes3 :=
    if cleaned3.length ≠ original.length then changes2 ++ ["removed_special_characters"] else changes2
  { text := cleaned3, source := input.source, changes_made := changes3 }

/-! ### Chaining (for the lineage claims) and concrete components -/

/-- Package a prior result as an input source, the way
`cleaner.run(result_a)` passes a `ComponentResult` to the next `run`. -/
def resultToSrc (r : ComponentResult Payload) : InputSource :=
  .resultSrc r.envelope r.data r.metadata

/-- Run a chain of components, each consuming the previous result. -/
def runChainAux (cfg : RunConfig) (now : Nat) :
    ComponentResult Payload × FS → List (Component Payload Payload) →
    ComponentResult Payload × FS
  | st, [] => st
  | (r, fs), c :: cs => runChainAux cfg now (run c (resultToSrc r) cfg now fs) cs

/-- Every step of the chain (including the final state) succeeded. -/
def chainOk (cfg : RunConfig) (now : Nat) :
    ComponentResult Payload × FS → List (Component Payload Payload) → Bool
  | (r, _), [] => r.error == none
  | (r, fs), c :: cs =>
    r.error == none && chainOk cfg now (run c (resultToSrc r) cfg now fs) cs

/-- A concrete pass-through component over raw payloads, used to instantiate
the general theorems on closed inputs. -/
def echoComponent (name inSchema outSchema : String) : Component Payload Payload :=
  { name := name
    version := "1.0.0"
    inputSchemaName := inSchema
    outputSchemaName := outSchema
    sampleDataDir := "sample_data/" ++ name
    prepareInputName := "prepare_input"
    prepareInput := fun d => .ok d
    validateInput := fun d => .ok d
    process := fun d => .ok d
    dumpOutput := fun d => d }

/-- A concrete component that overrides `prepare_input` in the ordinary
Python way: the hook's behaviour is custom, but — as for every
`def prepare_input` override — its `__name__` is still `"prepare_input"`. -/
def overridingEcho (name inSchema outSchema : String) : Component Payload Payload :=
  { echoComponent name inSchema outSchema with
    prepareInput := fun d => .ok (("adapted", PyValue.pyStr "yes") :: d) }

/-- A concrete component whose `prepare_input` attribute was assigned a
function defined under another name — the only situation in which the
override test of `can_process` fires. -/
def renamedHookEcho (name inSchema outSchema : String) : Component Payload Payload :=
  { echoComponent name inSchema outSchema with
    prepareInputName := "custom_adapter"
    prepareInput := fun d => .ok (("adapted", PyValue.pyStr "yes") :: d) }

/-- A concrete metadata record used to instantiate general theorems on
closed inputs. -/
def mdW : ComponentMetadata :=
  { component_name := "w", component_version := "1.0.0", executed_at := 3 }

/-! ### Lemmas: decimal renderings are injective -/

theorem charVal_digitChar {d : Nat} (h : d < 10) : charVal (digitChar d) = d := by
  interval_cases d <;> decide

theorem strValFrom_append (a : Nat) (xs ys : List Char) :
    strValFrom a (xs ++ ys) = strValFrom (strValFrom a xs) ys := by
  simp [strValFrom, List.foldl_append]

theorem natDigitsAux_strValFrom :
    ∀ (fuel n a : Nat), n < fuel →
      strValFrom a (natDigitsAux fuel n) = a * 10 ^ (natDigitsAux fuel n).length + n := by
  intro fuel
  induction fuel with
  | zero => intro n a h; omega
  | succ fuel ih =>
    intro n a h
    by_cases hn : n < 10
    · simp only [natDigitsAux, if_pos hn, strValFrom, List.foldl_cons, List.foldl_nil,
        List.length_cons, List.length_nil, pow_one, charVal_digitChar hn]
      ring
    · have hdiv : n / 10 < fuel := by
        have h1 : n / 10 < n := Nat.div_lt_self (by omega) (by omega)
        omega
      simp only [natDigitsAux, if_neg hn]
      rw [strValFrom_append, ih (n / 10) a hdiv]
      have hmod : n % 10 < 10 := Nat.mod_lt _ (by omega)
      simp only [strValFrom, List.foldl_cons, List.foldl_nil, charVal_digitChar hmod,
        List.length_append, List.length_cons, List.length_nil]
      have : 10 ^ ((natDigitsAux fuel (n / 10)).length + (0 + 1)) =
          10 ^ (natDigitsAux fuel (n / 10)).length * 10 := by
        rw [pow_succ]
      rw [this]
      have := Nat.div_add_mod n 10
      ring_nf
      omega

theorem strVal_natDigits (n : Nat) : strVal (natDigits n) = n := by
  have := natDigitsAux_strValFrom (n + 1) n 0 (by omega)
  simpa [strVal, natDigits] using this

theorem strValFrom_replicate_zero (k : Nat) :
    strValFrom 0 (List.replicate k '0') = 0 := by
  induction k with
  | zero => rfl
  | succ k ih => simpa [List.replicate_succ, strValFrom, charVal] using ih

theorem strVal_pad3 (n : Nat) : strVal (pad3 n).data = n := by
  show strValFrom 0 (List.replicate (3 - (natDigits n).length) '0' ++ natDigits n) = n
  rw [strValFrom_append, strValFrom_replicate_zero]
  exact strVal_natDigits n

theorem pad3_inj {a b : Nat} (h : pad3 a = pad3 b) : a = b := by
  have := congrArg (fun s => strVal s.data) h
  simpa [strVal_pad3] using this

theorem candidate_inj (base : String) : Function.Injective (candidate base) := by
  intro m n h
  have hd := congrArg String.data h
  match m, n with
  | 0, 0 => rfl
  | 0, k + 1 =>
    exfalso
    simp only [candidate, String.data_append, List.append_assoc] at hd
    have := List.append_cancel_left hd
    simp at this
  | k + 1, 0 =>
    exfalso
    simp only [candidate, String.data_append, List.append_assoc] at hd
    have := List.append_cancel_left hd
    simp at this
  | k + 1, j + 1 =>
    simp only [candidate, String.data_append, List.append_assoc] at hd
    have h1 := List.append_cancel_left hd
    simp only [List.cons_append, List.nil_append, List.cons.injEq, true_and] at h1
    have h3 := List.append_cancel_right h1
    have : pad3 (k + 1) = pad3 (j + 1) := by
      cases hp : pad3 (k + 1); cases hq : pad3 (j + 1)
      simp_all
    have := pad3_inj this
    omega

/-! ### Lemmas: the collision loop picks a fresh, well-formed filename -/

theorem findFreeAux_sound (taken : List String) (base : String) :
    ∀ (fuel n : Nat) (f : String), findFreeAux taken base fuel n = some f →
      f ∉ taken ∧ ∃ k, f = candidate base k := by
  intro fuel
  induction fuel with
  | zero => intro n f h; simp [findFreeAux] at h
  | succ fuel ih =>
    intro n f h
    simp only [findFreeAux] at h
    split at h
    · exact ih (n + 1) f h
    · rename_i hnot
      cases h
      exact ⟨hnot, n, rfl⟩

theorem findFreeAux_isSome (taken : List String) (base : String) :
    ∀ (fuel n : Nat), (∃ m, m < fuel ∧ candidate base (n + m) ∉ taken) →
      (findFreeAux taken base fuel n).isSome := by
  intro fuel
  induction fuel with
  | zero => rintro n ⟨m, hm, _⟩; omega
  | succ fuel ih =>
    rintro n ⟨m, hm, hfree⟩
    simp only [findFreeAux]
    split
    · rename_i hmem
      have hm0 : m ≠ 0 := by
        intro h0
        subst h0
        simp only [Nat.add_zero] at hfree
        exact hfree hmem
      apply ih
      refine ⟨m - 1, by omega, ?_⟩
      have heq : n + 1 + (m - 1) = n + m := by omega
      rw [heq]
      exact hfree
    · simp

theorem exists_candidate_free (taken : List String) (base : String) :
    ∃ m, m < taken.length + 1 ∧ candidate base m ∉ taken := by
  by_contra hall
  push_neg at hall
  have hsub : ∀ m ∈ Finset.range (taken.length + 1), candidate base m ∈ taken.toFinset := by
    intro m hm
    simp only [Finset.mem_range] at hm
    simpa [List.mem_toFinset] using hall m hm
  have hinj : Set.InjOn (candidate base) (Finset.range (taken.length + 1)) :=
    fun a _ b _ h => candidate_inj base h
  have hcard := Finset.card_le_card_of_injOn _ hsub hinj
  simp only [Finset.card_range] at hcard
  have := taken.toFinset_card_le
  omega

theorem findFreeName_spec (taken : List String) (base : String) :
    findFreeName taken base ∉ taken ∧ ∃ k, findFreeName taken base = candidate base k := by
  obtain ⟨m, hm, hfree⟩ := exists_candidate_free taken base
  have hsome := findFreeAux_isSome taken base (taken.length + 1) 0
    ⟨m, hm, by simpa using hfree⟩
  obtain ⟨f, hf⟩ := Option.isSome_iff_exists.mp hsome
  have hs := findFreeAux_sound taken base _ _ f hf
  unfold findFreeName
  rw [hf]
  simpa using hs

theorem sampleBaseName_eq (dt : DataType) (pfx : Option String) (now : Nat) :
    sampleBaseName dt pfx now =
      (if pyTruthyStr pfx then pfx.getD "" ++ "_" else "")
        ++ (if dt = DataType.component_input then "input" else "output")
        ++ "_" ++ fileTimestamp now := by
  unfold sampleBaseName
  by_cases h1 : pyTruthyStr pfx <;> by_cases h2 : dt = DataType.component_input <;>
    simp only [h1, h2, if_pos, if_neg, if_true, if_false, Bool.false_eq_true,
      String.empty_append] <;>
    (apply String.ext; simp only [String.data_append, List.append_assoc]) <;>
    congr 1

theorem takenNames_saveSample_self (c : Component I O) (dt : DataType) (data : Payload)
    (md : ComponentMetadata) (pfx : Option String) (now : Nat) (fs : FS) :
    takenNames c.sampleDataDir (saveSample c dt data md pfx now fs)
      = (saveEntry c dt data md pfx now fs).name :: takenNames c.sampleDataDir fs := by
  simp [takenNames, saveSample, List.filter_cons, saveEntry]

theorem saveEntry_name_fresh (c : Component I O) (dt : DataType) (data : Payload)
    (md : ComponentMetadata) (pfx : Option String) (now : Nat) (fs : FS) :
    (saveEntry c dt data md pfx now fs).name ∉ takenNames c.sampleDataDir fs :=
  (findFreeName_spec (takenNames c.sampleDataDir fs) (sampleBaseName dt pfx now)).1

theorem saveEntry_name_shape (c : Component I O) (dt : DataType) (data : Payload)
    (md : ComponentMetadata) (pfx : Option String) (now : Nat) (fs : FS) :
    ∃ k, (saveEntry c dt data md pfx now fs).name = candidate (sampleBaseName dt pfx now) k :=
  (findFreeName_spec (takenNames c.sampleDataDir fs) (sampleBaseName dt pfx now)).2

/-- C7: a save never overwrites an existing file in the component's sample
directory: the chosen filename is fresh, has the form
`[<pfx>_]<input|output>_<timestamp>[_<NNN>].json` with a positive zero-padded
counter used only on collision, and a second (sequential) save — in
particular one within the same timestamp granularity — always lands in a
file distinct from the first. -/
theorem save_sample_collision_free :
    ∀ (I O : Type) (c : Component I O) (dt : DataType) (data : Payload)
      (md : ComponentMetadata) (pfx : Option String) (now : Nat) (fs : FS),
      (saveEntry c dt data md pfx now fs).name ∉ takenNames c.sampleDataDir fs
      ∧ ((saveEntry c dt data md pfx now fs).name =
            (if pyTruthyStr pfx then pfx.getD "" ++ "_" else "")
              ++ (if dt = DataType.component_input then "input" else "output")
              ++ "_" ++ fileTimestamp now ++ ".json"
          ∨ ∃ n, 0 < n ∧ (saveEntry c dt data md pfx now fs).name =
            (if pyTruthyStr pfx then pfx.getD "" ++ "_" else "")
              ++ (if dt = DataType.component_input then "input" else "output")
              ++ "_" ++ fileTimestamp now ++ "_" ++ pad3 n ++ ".json")
      ∧ ∀ (dt2 : DataType) (data2 : Payload) (md2 : ComponentMetadata)
          (pfx2 : Option String) (now2 : Nat),
          ((saveEntry c dt2 data2 md2 pfx2 now2 (saveSample c dt data md pfx now fs)).name
            = (saveEntry c dt data md pfx now fs).name) = False := by
  intro I O c dt data md pfx now fs
  refine ⟨saveEntry_name_fresh c dt data md pfx now fs, ?_, ?_⟩
  · obtain ⟨k, hk⟩ := saveEntry_name_shape c dt data md pfx now fs
    rw [hk, sampleBaseName_eq]
    match k with
    | 0 => left; rfl
    | k + 1 =>
      right
      exact ⟨k + 1, by omega, rfl⟩
  · intro dt2 data2 md2 pfx2 now2
    simp only [eq_iff_iff, iff_false]
    intro heq
    have hfresh := saveEntry_name_fresh c dt2 data2 md2 pfx2 now2
      (saveSample c dt data md pfx now fs)
    rw [takenNames_saveSample_self, heq] at hfresh
    exact hfresh (List.mem_cons_self _ _)

/-- C7 (witness): the collision-freedom theorem applied at two concrete
sequential saves of the same kind with the same timestamp. -/
theorem save_sample_collision_free_witness :
    ((saveEntry (echoComponent "w7" "S" "S") DataType.component_input [] mdW none 3
        (saveSample (echoComponent "w7" "S" "S") DataType.component_input [] mdW
          none 3 [])).name
      = (saveEntry (echoComponent "w7" "S" "S") DataType.component_input [] mdW
          none 3 []).name) = False :=
  (save_sample_collision_free Payload Payload (echoComponent "w7" "S" "S")
    DataType.component_input [] mdW none 3 []).2.2 DataType.component_input [] mdW none 3

/-! ### Lemmas: shapes of `runAfterResolve`, `runCore` and `run` results -/

theorem runAfterResolve_error_md {c : Component I O} {cfg : RunConfig} {now : Nat}
    {fs : FS} {md0 : ComponentMetadata} {env : DataEnvelope} {md : ComponentMetadata}
    {msg : String} {fs' : FS}
    (h : runAfterResolve c cfg now fs md0 env = .error (md, msg, fs')) :
    md = { md0 with data_lineage := env.lineage } := by
  unfold runAfterResolve at h
  repeat' split at h
  all_goals cases h
  all_goals rfl

theorem runAfterResolve_ok_shape {c : Component I O} {cfg : RunConfig} {now : Nat}
    {fs : FS} {md0 : ComponentMetadata} {env : DataEnvelope} {md : ComponentMetadata}
    {out : O} {oenv : DataEnvelope} {fs' : FS}
    (h : runAfterResolve c cfg now fs md0 env = .ok (md, out, oenv, fs')) :
    md = { md0 with data_lineage := env.lineage }
    ∧ oenv = createOutputEnvelope c out md env := by
  unfold runAfterResolve at h
  repeat' split at h
  all_goals cases h
  all_goals exact ⟨rfl, rfl⟩

theorem runCore_ok_md {c : Component I O} {src : InputSource} {cfg : RunConfig}
    {now : Nat} {fs : FS} {md : ComponentMetadata} {out : O} {oenv : DataEnvelope}
    {fs' : FS} (h : runCore c src cfg now fs = .ok (md, out, oenv, fs')) :
    md.execution_id = some (pyOrStr cfg.execution_id "local_run")
    ∧ md.executed_at = now := by
  unfold runCore at h
  split at h
  · split at h
    · cases h
    · have := (runAfterResolve_ok_shape h).1
      subst this
      exact ⟨rfl, rfl⟩
  · split at h
    · cases h
    · have := (runAfterResolve_ok_shape h).1
      subst this
      exact ⟨rfl, rfl⟩

theorem runCore_ok_envelope {c : Component I O} {src : InputSource} {cfg : RunConfig}
    {now : Nat} {fs : FS} {md : ComponentMetadata} {out : O} {oenv : DataEnvelope}
    {fs' : FS} (h : runCore c src cfg now fs = .ok (md, out, oenv, fs')) :
    ∃ ienv, oenv = createOutputEnvelope c out md ienv := by
  unfold runCore at h
  split at h
  · split at h
    · cases h
    · exact ⟨_, (runAfterResolve_ok_shape h).2⟩
  · split at h
    · cases h
    · exact ⟨_, (runAfterResolve_ok_shape h).2⟩

theorem run_error_none_iff {c : Component I O} {src : InputSource} {cfg : RunConfig}
    {now : Nat} {fs : FS} :
    (run c src cfg now fs).1.error = none ↔
      ∃ md out oenv fs', runCore c src cfg now fs = .ok (md, out, oenv, fs') := by
  unfold run
  cases hrc : runCore c src cfg now fs with
  | error e =>
    obtain ⟨md, msg, fs'⟩ := e
    simp
  | ok a =>
    obtain ⟨md, out, oenv, fs'⟩ := a
    simp

theorem run_of_runCore_ok {c : Component I O} {src : InputSource} {cfg : RunConfig}
    {now : Nat} {fs : FS} {md : ComponentMetadata} {out : O} {oenv : DataEnvelope}
    {fs' : FS} (h : runCore c src cfg now fs = .ok (md, out, oenv, fs')) :
    run c src cfg now fs =
      ({ data := some out, metadata := md, error := none, envelope := some oenv }, fs') := by
  unfold run
  rw [h]

/-- C1: for every input source (of any shape) and every configuration, `run`
returns a `ComponentResult` (it is a total function: the catch-all `except`
converts every failure of the try block into a failure result, so no
exception escapes), and the result has exactly one of
{output value present, error string present} — never both, never neither. -/
theorem run_result_exactly_one :
    ∀ (I O : Type) (c : Component I O) (src : InputSource) (cfg : RunConfig)
      (now : Nat) (fs : FS),
      ((run c src cfg now fs).1.data.isSome = true
        ∧ (run c src cfg now fs).1.error = none)
      ∨ ((run c src cfg now fs).1.data = none
        ∧ (run c src cfg now fs).1.error.isSome = true) := by
  intro I O c src cfg now fs
  unfold run
  cases hrc : runCore c src cfg now fs with
  | error e =>
    obtain ⟨md, msg, fs'⟩ := e
    right
    simp
  | ok a =>
    obtain ⟨md, out, oenv, fs'⟩ := a
    left
    simp

/-- C6: an `input_source` matching none of the accepted variant shapes makes
`run` return a failure result whose error string reports the unsupported
input kind; the exception is captured at the `run` boundary, not raised (the
filesystem is also untouched).  The same holds for the near-miss of a
two-element tuple whose first element is not a component. -/
theorem run_unsupported_source_fails :
    ∀ (I O : Type) (c : Component I O) (cfg : RunConfig) (now : Nat) (fs : FS)
      (tyName : String),
      ((run c (.otherSrc tyName) cfg now fs).1.data = none
        ∧ (run c (.otherSrc tyName) cfg now fs).1.error =
            some ("Component " ++ c.name ++ " failed: "
              ++ ("Unsupported input source type: " ++ tyName))
        ∧ (run c (.otherSrc tyName) cfg now fs).2 = fs)
      ∧ ((run c (.tupleBadSrc tyName) cfg now fs).1.data = none
        ∧ (run c (.tupleBadSrc tyName) cfg now fs).1.error =
            some ("Component " ++ c.name ++ " failed: "
              ++ ("First element of tuple must be a BaseComponent, got " ++ tyName))) := by
  intro I O c cfg now fs tyName
  exact ⟨⟨rfl, rfl, rfl⟩, ⟨rfl, rfl⟩⟩

/-! ### C2: the compatibility check -/

/-- C2 (counterexample to the claim as stated, two parts).  (i) An envelope
whose declared schema name is present (`some ""`) and differs from the
component's declared input schema, on a component with no custom input
adaptation: the claim requires `can_process` to fail, but the code passes,
because the Python truthiness test `if envelope.schema_name` treats the
empty string as absent.  (ii) A component that overrides `prepare_input` in
the ordinary way — its hook transforms the payload, yet, as for every
`def prepare_input` override, the hook's `__name__` is still
`"prepare_input"` — on a present, non-empty, differing schema name: the
claim requires a pass, but the code fails with the schema-mismatch message,
because the override test of line 180 compares `__name__`s, which are equal
for every ordinary override. -/
theorem can_process_claim_counterexample :
    (((can_process (echoComponent "tc" "TextInput" "TextInput")
        { data_type := .raw_data, data := [], schema_name := some "" }).1 = true)
      ∧ (DataEnvelope.schema_name
          { data_type := .raw_data, data := [], schema_name := some "" }).isSome = true
      ∧ (DataEnvelope.schema_name
          { data_type := .raw_data, data := [], schema_name := some "" })
          ≠ some (echoComponent "tc" "TextInput" "TextInput").inputSchemaName)
    ∧ ((overridingEcho "oc" "TextInput" "TextInput").prepareInput []
          = .ok [("adapted", PyValue.pyStr "yes")]
      ∧ (overridingEcho "oc" "TextInput" "TextInput").prepareInputName = "prepare_input"
      ∧ can_process (overridingEcho "oc" "TextInput" "TextInput")
          { data_type := .raw_data, data := [], schema_name := some "WordStats" }
        = (false, some "Schema mismatch: expects TextInput, got WordStats")) := by
  refine ⟨⟨rfl, rfl, ?_⟩, rfl, rfl, ?_⟩
  · decide
  · have h : ("WordStats" ≠ "" ∧ "WordStats"
        ≠ (overridingEcho "oc" "TextInput" "TextInput").inputSchemaName) := by decide
    simp [can_process, overridingEcho, echoComponent, h]

/-- C2 (amended): `can_process` is a pure predicate that passes unless the
envelope's declared schema name is present, *non-empty*, and different from
the component's declared input-schema name, and the component's
`prepare_input` attribute bears the same `__name__` as the base hook
(`"prepare_input"`) — which it does for every ordinary `def prepare_input`
override, so overriding components fail with the schema mismatch too; the
pass with message `"Will transform using prepare_input()"` occurs exactly
when the hook's `__name__` differs (the attribute was assigned a function
defined under another name); the failure case carries an explanation string
naming both schema identifiers. -/
theorem can_process_spec :
    ∀ (I O : Type) (c : Component I O) (env : DataEnvelope),
      ((can_process c env).1 = false ↔
        ∃ s, env.schema_name = some s ∧ s ≠ "" ∧ s ≠ c.inputSchemaName
          ∧ c.prepareInputName = "prepare_input")
      ∧ (∀ s, env.schema_name = some s → s ≠ "" → s ≠ c.inputSchemaName →
          c.prepareInputName ≠ "prepare_input" →
          can_process c env = (true, some "Will transform using prepare_input()"))
      ∧ (∀ s, env.schema_name = some s → (can_process c env).1 = false →
          (can_process c env).2 =
            some ("Schema mismatch: expects " ++ c.inputSchemaName ++ ", got " ++ s)) := by
  intro I O c env
  rcases henv : env.schema_name with _ | s
  · simp [can_process, henv]
  · by_cases h1 : s ≠ "" ∧ s ≠ c.inputSchemaName
    · by_cases h2 : c.prepareInputName = "prepare_input"
      · have hnn : ¬ c.prepareInputName ≠ "prepare_input" := by simp [h2]
        simp only [can_process, henv]
        rw [if_pos h1, if_neg hnn]
        refine ⟨?_, ?_, ?_⟩
        · simp only [true_iff]
          exact ⟨s, rfl, h1.1, h1.2, h2⟩
        · intro t ht _ _ hname
          exact absurd h2 hname
        · intro t ht _
          cases ht
          rfl
      · simp only [can_process, henv]
        rw [if_pos h1, if_pos h2]
        refine ⟨?_, ?_, ?_⟩
        · constructor
          · intro h
            exact absurd h (by decide)
          · rintro ⟨t, ht, _, _, hname⟩
            exact absurd hname h2
        · intro t ht _ _ _
          rfl
        · intro t _ hfalse
          exact absurd hfalse (by decide)
    · have hcp : can_process c env = (true, none) := by
        simp [can_process, henv, h1]
      push_neg at h1
      rw [hcp]
      refine ⟨?_, ?_, ?_⟩
      · constructor
        · intro h
          exact absurd h (by decide)
        · rintro ⟨t, ht, hne, hnee, _⟩
          cases ht
          exact absurd (h1 hne) hnee
      · intro t ht hne hnee _
        cases ht
        exact absurd (h1 hne) hnee
      · intro t _ hfalse
        exact absurd hfalse (by decide)

/-- C2 (witness): the amended theorem applied at concrete inputs — an
ordinarily-named hook yields the concrete two-name explanation string, and a
hook assigned from a differently-named function yields the pass with the
will-transform message. -/
theorem can_process_spec_witness :
    ((can_process (echoComponent "tcw" "TextInput" "TextInput")
        { data_type := .raw_data, data := [], schema_name := some "WordStats" }).2 =
      some "Schema mismatch: expects TextInput, got WordStats")
    ∧ (can_process (renamedHookEcho "tcw2" "TextInput" "TextInput")
        { data_type := .raw_data, data := [], schema_name := some "WordStats" }
      = (true, some "Will transform using prepare_input()")) := by
  constructor
  · have h := (can_process_spec Payload Payload (echoComponent "tcw" "TextInput" "TextInput")
      { data_type := .raw_data, data := [], schema_name := some "WordStats" }).2.2
      "WordStats" rfl (by decide)
    simpa using h
  · exact (can_process_spec Payload Payload (renamedHookEcho "tcw2" "TextInput" "TextInput")
      { data_type := .raw_data, data := [], schema_name := some "WordStats" }).2.1
      "WordStats" rfl (by decide) (by decide) (by decide)

/-! ### C3: the text-cleaner example scenario -/

/-- C3 (evaluation of the code at the claim's input): on
`{"text": "Hello   World", "source": "t1"}` the text cleaner produces
`text = "hello world"` and `source = "t1"` as claimed, but `changes_made`
carries a third entry `"removed_special_characters"`: the guard
`len(cleaned) != len(original)` fires because whitespace collapsing
shortened the text, although no special character was removed. -/
theorem textCleaner_example_eval :
    textCleanerProcess ⟨"Hello   World", some "t1"⟩ =
      ⟨"hello world", some "t1",
       ["removed_extra_whitespace", "converted_to_lowercase",
        "removed_special_characters"]⟩ := by
  decide

/-! ### C4: the execution id recorded in lineage -/

theorem pyOrStr_falsy {a : Option String} (h : pyTruthyStr a = false) (d : String) :
    pyOrStr a d = d := by
  cases a with
  | none => rfl
  | some s =>
    have hs : s = "" := by
      by_contra hne
      simp [pyTruthyStr, hne] at h
    simp [pyOrStr, hs]

/-- C4 (counterexample to the claim as stated): a successful `run` whose
configuration supplies no execution id appends a lineage record whose
execution id is `"local_run"`, not the empty string: `run` substitutes the
default `"local_run"` at metadata creation, so the empty-string fallback of
the record construction never fires. -/
theorem lineage_execution_id_counterexample :
    ((run (echoComponent "e4" "S" "S") (.dictSrc []) {} 5 []).1.error = none)
    ∧ ((run (echoComponent "e4" "S" "S") (.dictSrc []) {} 5 []).1.envelope.map
        (fun e => e.lineage.map (fun r => r.execution_id)) = some ["local_run"])
    ∧ (RunConfig.execution_id {} = none)
    ∧ ("local_run" ≠ "") := by
  exact ⟨by decide, by decide, rfl, by decide⟩

/-- C4 (amended): for every successful `run` whose configuration supplies no
truthy execution id, the lineage record appended to the output envelope is
the ordered tuple of this component's name, its version, the ISO-rendered
execution instant, and the execution id `"local_run"` (the default
substituted at metadata creation when the configuration carries none). -/
theorem lineage_execution_id_default :
    ∀ (I O : Type) (c : Component I O) (src : InputSource) (cfg : RunConfig)
      (now : Nat) (fs : FS),
      pyTruthyStr cfg.execution_id = false →
      (run c src cfg now fs).1.error = none →
      ∃ e r, (run c src cfg now fs).1.envelope = some e
        ∧ e.lineage.getLast? = some r
        ∧ r = { component := c.name, version := c.version,
                timestamp := isoformat now, execution_id := "local_run" } := by
  intro I O c src cfg now fs hcfg herr
  obtain ⟨md, out, oenv, fs', hok⟩ := run_error_none_iff.mp herr
  obtain ⟨ienv, hoenv⟩ := runCore_ok_envelope hok
  obtain ⟨hid, hat⟩ := runCore_ok_md hok
  rw [run_of_runCore_ok hok]
  refine ⟨oenv, mkLineageRecord c md, rfl, ?_, ?_⟩
  · rw [hoenv]
    simp only [createOutputEnvelope]
    exact List.getLast?_concat _
  · unfold mkLineageRecord
    rw [hid, hat, pyOrStr_falsy hcfg]
    rfl

/-- C4 (witness): the amended theorem applied at a concrete successful run
with a configuration carrying no execution id. -/
theorem lineage_execution_id_default_witness :
    ∃ e r, (run (echoComponent "e4w" "S" "S") (.dictSrc []) {} 5 []).1.envelope = some e
      ∧ e.lineage.getLast? = some r
      ∧ r = { component := (echoComponent "e4w" "S" "S").name,
              version := (echoComponent "e4w" "S" "S").version,
              timestamp := isoformat 5, execution_id := "local_run" } :=
  lineage_execution_id_default Payload Payload (echoComponent "e4w" "S" "S")
    (.dictSrc []) {} 5 [] (by decide) (by decide)

/-! ### C5: lineage monotonicity -/

theorem runCore_envSrc_ok_lineage {c : Component I O} {e0 : DataEnvelope}
    {cfg : RunConfig} {now : Nat} {fs : FS} {md : ComponentMetadata} {out : O}
    {oenv : DataEnvelope} {fs' : FS}
    (h : runCore c (.envSrc e0) cfg now fs = .ok (md, out, oenv, fs')) :
    oenv.lineage = e0.lineage ++ [mkLineageRecord c md] := by
  have h2 : runAfterResolve c cfg now fs
      { initMetadata c cfg now with
        input_source_type := some (getSourceTypeName (.envSrc e0)) } e0
      = .ok (md, out, oenv, fs') := h
  rw [(runAfterResolve_ok_shape h2).2]
  rfl

theorem runCore_resultSrc_ok_lineage {c : Component I O} {e0 : DataEnvelope}
    {dd : Option Payload} {md0 : ComponentMetadata} {cfg : RunConfig} {now : Nat}
    {fs : FS} {md : ComponentMetadata} {out : O} {oenv : DataEnvelope} {fs' : FS}
    (h : runCore c (.resultSrc (some e0) dd md0) cfg now fs = .ok (md, out, oenv, fs')) :
    oenv.lineage = e0.lineage ++ [mkLineageRecord c md] := by
  have h2 : runAfterResolve c cfg now fs
      { initMetadata c cfg now with
        input_source_type := some (getSourceTypeName (.resultSrc (some e0) dd md0)) } e0
      = .ok (md, out, oenv, fs') := h
  rw [(runAfterResolve_ok_shape h2).2]
  rfl

theorem runCore_dictSrc_ok_lineage {c : Component I O} {d : Payload}
    {cfg : RunConfig} {now : Nat} {fs : FS} {md : ComponentMetadata} {out : O}
    {oenv : DataEnvelope} {fs' : FS}
    (h : runCore c (.dictSrc d) cfg now fs = .ok (md, out, oenv, fs')) :
    oenv.lineage = [mkLineageRecord c md] := by
  have h2 : runAfterResolve c cfg now fs
      { initMetadata c cfg now with
        input_source_type := some (getSourceTypeName (.dictSrc d)) }
      { data_type := .raw_data, data := d, timestamp := now }
      = .ok (md, out, oenv, fs') := h
  rw [(runAfterResolve_ok_shape h2).2]
  rfl

theorem chainOk_head {cfg : RunConfig} {now : Nat} {st : ComponentResult Payload × FS}
    {cs : List (Component Payload Payload)} (h : chainOk cfg now st cs = true) :
    st.1.error = none := by
  obtain ⟨r, fs⟩ := st
  cases cs with
  | nil => simpa [chainOk] using h
  | cons c cs =>
    simp only [chainOk, Bool.and_eq_true] at h
    simpa using h.1

theorem chain_lineage_aux (cfg : RunConfig) (now : Nat) :
    ∀ (cs : List (Component Payload Payload)) (st : ComponentResult Payload × FS)
      (e0 : DataEnvelope),
      st.1.envelope = some e0 →
      chainOk cfg now st cs = true →
      ∃ e, (runChainAux cfg now st cs).1.envelope = some e
        ∧ e.lineage.map LineageRecord.component
            = e0.lineage.map LineageRecord.component ++ cs.map (fun c => c.name) := by
  intro cs
  induction cs with
  | nil =>
    intro st e0 he _
    obtain ⟨r, fs⟩ := st
    exact ⟨e0, by simpa [runChainAux] using he, by simp⟩
  | cons c cs ih =>
    intro st e0 he hok
    obtain ⟨r, fs⟩ := st
    simp only [chainOk, Bool.and_eq_true] at hok
    obtain ⟨-, hok2⟩ := hok
    have hsucc : (run c (resultToSrc r) cfg now fs).1.error = none := chainOk_head hok2
    obtain ⟨md, out, oenv, fs', hokc⟩ := run_error_none_iff.mp hsucc
    have he' : r.envelope = some e0 := he
    have hsrc : resultToSrc r = .resultSrc (some e0) r.data r.metadata := by
      simp [resultToSrc, he']
    rw [hsrc] at hokc
    have hlin := runCore_resultSrc_ok_lineage hokc
    have hrun := run_of_runCore_ok hokc
    rw [← hsrc] at hrun
    have henv' : (run c (resultToSrc r) cfg now fs).1.envelope = some oenv := by
      rw [hrun]
    obtain ⟨e, he2, hmap⟩ := ih (run c (resultToSrc r) cfg now fs) oenv henv' hok2
    refine ⟨e, by simpa [runChainAux] using he2, ?_⟩
    rw [hmap, hlin]
    simp [mkLineageRecord]

/-- C5: the output envelope's lineage is the input envelope's lineage plus
exactly one appended record naming this component (the input lineage appears
as an unchanged prefix — the append is a copy, never an in-place mutation,
the model being pure); consequently, after a chain of N successful
executions started from a raw mapping, the final output envelope's lineage
has exactly N entries naming the components in execution order. -/
theorem lineage_monotone :
    (∀ (I O : Type) (c : Component I O) (e0 : DataEnvelope) (cfg : RunConfig)
       (now : Nat) (fs : FS) (md : ComponentMetadata) (out : O)
       (oenv : DataEnvelope) (fs' : FS),
       runCore c (.envSrc e0) cfg now fs = .ok (md, out, oenv, fs') →
       oenv.lineage = e0.lineage ++ [mkLineageRecord c md]
         ∧ (mkLineageRecord c md).component = c.name)
    ∧ (∀ (c0 : Component Payload Payload) (cs : List (Component Payload Payload))
         (d : Payload) (cfg : RunConfig) (now : Nat) (fs : FS),
         chainOk cfg now (run c0 (.dictSrc d) cfg now fs) cs = true →
         ∃ e, (runChainAux cfg now (run c0 (.dictSrc d) cfg now fs) cs).1.envelope = some e
           ∧ e.lineage.map LineageRecord.component = c0.name :: cs.map (fun c => c.name)
           ∧ e.lineage.length = cs.length + 1) := by
  constructor
  · intro I O c e0 cfg now fs md out oenv fs' h
    exact ⟨runCore_envSrc_ok_lineage h, rfl⟩
  · intro c0 cs d cfg now fs hok
    have hsucc : (run c0 (.dictSrc d) cfg now fs).1.error = none := chainOk_head hok
    obtain ⟨md, out, oenv, fs', hokc⟩ := run_error_none_iff.mp hsucc
    have hlin := runCore_dictSrc_ok_lineage hokc
    have henv : (run c0 (.dictSrc d) cfg now fs).1.envelope = some oenv := by
      rw [run_of_runCore_ok hokc]
    obtain ⟨e, he2, hmap⟩ := chain_lineage_aux cfg now cs _ oenv henv hok
    refine ⟨e, he2, ?_, ?_⟩
    · rw [hmap, hlin]
      simp [mkLineageRecord]
    · have := congrArg List.length hmap
      simp only [List.length_map] at this
      rw [this, hlin]
      simp

/-- C5 (witness): a concrete two-component chain, whose final envelope holds
exactly the two component names in execution order. -/
theorem lineage_monotone_witness :
    ∃ e, (runChainAux {} 3 (run (echoComponent "a" "S" "S") (.dictSrc []) {} 3 [])
        [echoComponent "b" "S" "S"]).1.envelope = some e
      ∧ e.lineage.map LineageRecord.component = ["a", "b"]
      ∧ e.lineage.length = 2 := by
  have h := lineage_monotone.2 (echoComponent "a" "S" "S") [echoComponent "b" "S" "S"]
    [] {} 3 [] (by decide)
  simpa using h

/-! ### Lemmas: mtimes, glob matching, and the JSON round trip -/

theorem foldl_max_le_init (fs : List FileEntry) :
    ∀ a : Nat, a ≤ fs.foldl (fun x e => max x e.mtime) a := by
  induction fs with
  | nil => intro a; exact le_refl a
  | cons e es ih =>
    intro a
    exact le_trans (le_max_left a e.mtime) (ih (max a e.mtime))

theorem foldl_max_mem_le (fs : List FileEntry) :
    ∀ (a : Nat) (e : FileEntry), e ∈ fs →
      e.mtime ≤ fs.foldl (fun x f => max x f.mtime) a := by
  induction fs with
  | nil => intro a e he; cases he
  | cons f fs ih =>
    intro a e he
    rcases List.mem_cons.mp he with rfl | hm
    · exact le_trans (le_max_right a e.mtime) (foldl_max_le_init fs _)
    · exact ih (max a f.mtime) e hm

theorem mtime_le_maxMtime {fs : FS} {e : FileEntry} (he : e ∈ fs) :
    e.mtime ≤ maxMtime fs :=
  foldl_max_mem_le fs 0 e he

theorem latestBy_of_all_le {acc : FileEntry} :
    ∀ {es : List FileEntry}, (∀ e ∈ es, ¬ acc.mtime < e.mtime) → latestBy acc es = acc := by
  intro es
  induction es with
  | nil => intro _; rfl
  | cons e es ih =>
    intro h
    have h1 : ¬ acc.mtime < e.mtime := h e (List.mem_cons_self e es)
    simp only [latestBy, if_neg h1]
    exact ih (fun f hf => h f (List.mem_cons_of_mem e hf))

theorem globNameMatches_candidate (pre tail0 : String) (k : Nat) :
    globNameMatches pre (candidate (pre ++ tail0) k) = true := by
  unfold globNameMatches candidate
  cases k with
  | zero =>
    simp only [Bool.and_eq_true, decide_eq_true_eq]
    refine ⟨⟨?_, ?_⟩, ?_⟩
    · rw [List.isPrefixOf_iff_prefix]
      simp only [String.data_append, List.append_assoc]
      exact List.prefix_append _ _
    · rw [List.isSuffixOf_iff_suffix]
      simp only [String.data_append]
      exact List.suffix_append _ _
    · simp only [String.length_append]
      have h5 : (".json" : String).length = 5 := by decide
      omega
  | succ k =>
    simp only [Bool.and_eq_true, decide_eq_true_eq]
    refine ⟨⟨?_, ?_⟩, ?_⟩
    · rw [List.isPrefixOf_iff_prefix]
      simp only [String.data_append, List.append_assoc]
      exact List.prefix_append _ _
    · rw [List.isSuffixOf_iff_suffix]
      simp only [String.data_append, List.append_assoc]
      have : (pre.data ++ (tail0.data ++ ("_".data ++ ((pad3 (k + 1)).data ++ ".json".data))))
          = (pre.data ++ tail0.data ++ "_".data ++ (pad3 (k + 1)).data) ++ ".json".data := by
        simp [List.append_assoc]
      rw [this]
      exact List.suffix_append _ _
    · simp only [String.length_append]
      have h5 : (".json" : String).length = 5 := by decide
      omega

theorem jsonRoundTrip_of_norm {e : DataEnvelope} (h : jsonNormPayload e.data = e.data)
    (hsi : e.source_info = none) : jsonRoundTrip e = e := by
  unfold jsonRoundTrip
  rw [h, hsi]
  rw [show (Option.map jsonNormPayload none : Option Payload) = e.source_info by
    rw [hsi]; rfl]

theorem mkSampleEnvelope_source_info (c : Component I O) (dt : DataType)
    (data : Payload) (md : ComponentMetadata) :
    (mkSampleEnvelope c dt data md).source_info = none := rfl

theorem filter_cons_pos {α : Type} (p : α → Bool) (a : α) (l : List α)
    (h : p a = true) : List.filter p (a :: l) = a :: List.filter p l := by
  simp [List.filter_cons, h]

theorem loadSample_after_save {c : Component I O} {dt : DataType} {data : Payload}
    {md : ComponentMetadata} {pfx : Option String} {now : Nat} {fs : FS}
    (hpfx : "/".data.isPrefixOf (saveEntry c dt data md pfx now fs).name.data = false) :
    loadSample c.sampleDataDir (saveEntry c dt data md pfx now fs).name
        (saveSample c dt data md pfx now fs)
      = .ok (jsonRoundTrip (mkSampleEnvelope c dt data md)) := by
  unfold loadSample saveSample
  rw [hpfx]
  simp only [Bool.false_eq_true, if_false]
  rw [List.find?_cons_of_pos]
  · rfl
  · simp [saveEntry]

theorem getLatest_after_save (c : Component I O) (data : Payload)
    (md : ComponentMetadata) (now : Nat) (fs : FS) :
    getLatestEnvelope c.sampleDataDir DataType.component_input
        (saveSample c DataType.component_input data md none now fs)
      = some (jsonRoundTrip (mkSampleEnvelope c DataType.component_input data md)) := by
  have hbase : sampleBaseName DataType.component_input none now
      = "input_" ++ fileTimestamp now := rfl
  obtain ⟨k, hk⟩ := saveEntry_name_shape c DataType.component_input data md none now fs
  have hglob : globNameMatches "input_"
      (saveEntry c DataType.component_input data md none now fs).name = true := by
    rw [hk, hbase]
    exact globNameMatches_candidate "input_" (fileTimestamp now) k
  unfold getLatestEnvelope saveSample
  have hpa : (fun e : FileEntry => e.dir == c.sampleDataDir
      && globNameMatches (if DataType.component_input = DataType.component_input
           then "input_" else "output_") e.name)
      (saveEntry c DataType.component_input data md none now fs) = true := by
    simp only [reduceIte, Bool.and_eq_true, beq_iff_eq]
    exact ⟨rfl, hglob⟩
  rw [filter_cons_pos
    (fun e : FileEntry => e.dir == c.sampleDataDir
      && globNameMatches (if DataType.component_input = DataType.component_input
           then "input_" else "output_") e.name)
    (saveEntry c DataType.component_input data md none now fs) fs hpa]
  have hl : latestBy (saveEntry c DataType.component_input data md none now fs)
      (List.filter (fun e : FileEntry => e.dir == c.sampleDataDir
        && globNameMatches (if DataType.component_input = DataType.component_input
             then "input_" else "output_") e.name) fs)
      = saveEntry c DataType.component_input data md none now fs := by
    apply latestBy_of_all_le
    intro e hef
    have hm : e.mtime ≤ maxMtime fs := mtime_le_maxMtime (List.mem_of_mem_filter hef)
    have hmt : (saveEntry c DataType.component_input data md none now fs).mtime
        = maxMtime fs + 1 := rfl
    omega
  exact congrArg (fun x => some (FileEntry.content x)) hl

/-! ### C8: the save/load round trip -/

/-- C8 (counterexample to the claim as stated): an envelope saved with a
tuple in its payload is loaded back with a list in its place — `json.dump`
writes tuples as JSON arrays and `json.load` reads arrays as lists — so the
loaded envelope is not equal in all fields to the one saved. -/
theorem sample_roundtrip_counterexample :
    ((match loadSample (echoComponent "rt" "S" "S").sampleDataDir "input_3.json"
          (saveSample (echoComponent "rt" "S" "S") DataType.component_input
            [("k", PyValue.pyTuple [])] mdW none 3 []) with
      | .ok e => e.data
      | .error _ => []) = [("k", PyValue.pyList [])])
    ∧ ¬ ([("k", PyValue.pyList [])] = ([("k", PyValue.pyTuple [])] : Payload)) := by
  constructor
  · rfl
  · intro h
    injection h with h1 h2
    injection h1 with ha hb
    exact PyValue.noConfusion hb

/-- C8 (amended): loading a saved sample by its filename yields the saved
envelope mapped through the JSON round trip, which preserves every field
(format version, data kind, component name/version, tags, schema
name/version, execution id, source info, lineage, and the timestamp up to
string formatting) and is the identity on the payload precisely when the
payload is JSON-representable (tuple-free); for such payloads the loaded
envelope equals the saved one in all fields. -/
theorem sample_roundtrip :
    ∀ (I O : Type) (c : Component I O) (dt : DataType) (data : Payload)
      (md : ComponentMetadata) (pfx : Option String) (now : Nat) (fs : FS),
      "/".data.isPrefixOf (saveEntry c dt data md pfx now fs).name.data = false →
      loadSample c.sampleDataDir (saveEntry c dt data md pfx now fs).name
          (saveSample c dt data md pfx now fs)
        = .ok (jsonRoundTrip (mkSampleEnvelope c dt data md))
      ∧ (jsonNormPayload data = data →
          loadSample c.sampleDataDir (saveEntry c dt data md pfx now fs).name
              (saveSample c dt data md pfx now fs)
            = .ok (mkSampleEnvelope c dt data md)) := by
  intro I O c dt data md pfx now fs hpfx
  have h1 := loadSample_after_save hpfx
  refine ⟨h1, fun hn => ?_⟩
  rw [h1, jsonRoundTrip_of_norm hn rfl]

/-- C8 (witness): the amended round-trip theorem applied to a concrete
tuple-free sample. -/
theorem sample_roundtrip_witness :
    loadSample (echoComponent "rtw" "S" "S").sampleDataDir
        (saveEntry (echoComponent "rtw" "S" "S") DataType.component_input
          [("k", PyValue.pyStr "v")] mdW none 3 []).name
        (saveSample (echoComponent "rtw" "S" "S") DataType.component_input
          [("k", PyValue.pyStr "v")] mdW none 3 [])
      = .ok (mkSampleEnvelope (echoComponent "rtw" "S" "S") DataType.component_input
          [("k", PyValue.pyStr "v")] mdW) :=
  (sample_roundtrip Payload Payload (echoComponent "rtw" "S" "S")
    DataType.component_input [("k", PyValue.pyStr "v")] mdW none 3 [] (by decide)).2 rfl

/-! ### C9: replay mode -/

theorem run_noneSrc_is_replay {c : Component I O} {cfg : RunConfig} {now : Nat}
    {fs : FS} {env : DataEnvelope}
    (hl : getLatestEnvelope c.sampleDataDir DataType.component_input fs = some env) :
    (run c .noneSrc cfg now fs).1.metadata.is_replay = true := by
  have he1 : runCore c .noneSrc cfg now fs
      = runAfterResolve c cfg now fs
          ({ initMetadata c cfg now with is_replay := true, input_source_type := some "latest_saved_input" }) env := by
    unfold runCore
    rw [hl]
  unfold run
  rw [he1]
  cases hra : runAfterResolve c cfg now fs
      ({ initMetadata c cfg now with is_replay := true, input_source_type := some "latest_saved_input" }) env with
  | error e =>
    obtain ⟨m, s, f⟩ := e
    have hm := runAfterResolve_error_md hra
    subst hm
    rfl
  | ok a =>
    obtain ⟨m, out, oenv, f⟩ := a
    have hm := (runAfterResolve_ok_shape hra).1
    subst hm
    rfl

/-- C9 (counterexample to the claim as stated): a sample persisted by
`_save_sample` with a caller-supplied filename prefix is an input sample
(its envelope's data kind is `component_input`), yet replay — which globs
only `input_*.json` — does not see it: with such a sample as the only
persisted input, `run` with no input source fails with the no-saved-input
error instead of replaying it. -/
theorem replay_pfx_counterexample :
    (run (echoComponent "rp" "S" "S") .noneSrc {} 9
        (saveSample (echoComponent "rp" "S" "S") DataType.component_input
          [("t", PyValue.pyStr "x")] mdW (some "p") 4 [])).1.error
      = some "Component rp failed: No saved inputs found for rp"
    ∧ (saveEntry (echoComponent "rp" "S" "S") DataType.component_input
        [("t", PyValue.pyStr "x")] mdW (some "p") 4 []).content.data_type
      = DataType.component_input := by
  exact ⟨by decide, rfl⟩

/-- C9 (amended): replay considers exactly the non-prefixed input samples
(files matching `input_*.json`).  (i) When no file in the component's
directory matches, `run` with no input source returns — captured, not
raised — a failure result with the no-saved-input error.  (ii) After an
unprefixed input-sample save, the latest-input lookup that replay uses
returns exactly the saved envelope (JSON round-tripped; equal to the saved
one whenever the payload is tuple-free), and the result of the replaying
`run` marks its metadata as a replay. -/
theorem replay_spec :
    (∀ (I O : Type) (c : Component I O) (cfg : RunConfig) (now : Nat) (fs : FS),
      (∀ e ∈ fs, ¬(e.dir = c.sampleDataDir ∧ globNameMatches "input_" e.name = true)) →
      (run c .noneSrc cfg now fs).1.error =
          some ("Component " ++ c.name ++ " failed: "
            ++ ("No saved inputs found for " ++ c.name))
        ∧ (run c .noneSrc cfg now fs).1.data = none)
    ∧ (∀ (I O : Type) (c : Component I O) (data : Payload) (md : ComponentMetadata)
        (now : Nat) (fs : FS) (cfg : RunConfig) (now2 : Nat),
        getLatestEnvelope c.sampleDataDir DataType.component_input
            (saveSample c DataType.component_input data md none now fs)
          = some (jsonRoundTrip (mkSampleEnvelope c DataType.component_input data md))
        ∧ (jsonNormPayload data = data →
            getLatestEnvelope c.sampleDataDir DataType.component_input
                (saveSample c DataType.component_input data md none now fs)
              = some (mkSampleEnvelope c DataType.component_input data md))
        ∧ (run c .noneSrc cfg now2
            (saveSample c DataType.component_input data md none now fs)).1.metadata.is_replay
          = true) := by
  constructor
  · intro I O c cfg now fs hno
    have hl : getLatestEnvelope c.sampleDataDir DataType.component_input fs = none := by
      unfold getLatestEnvelope
      have hf : List.filter (fun e : FileEntry => e.dir == c.sampleDataDir
          && globNameMatches (if DataType.component_input = DataType.component_input
               then "input_" else "output_") e.name) fs = [] := by
        rw [List.filter_eq_nil]
        intro e he hp
        simp only [reduceIte, Bool.and_eq_true, beq_iff_eq] at hp
        exact hno e he ⟨hp.1, hp.2⟩
      rw [hf]
    unfold run runCore
    rw [hl]
    exact ⟨rfl, rfl⟩
  · intro I O c data md now fs cfg now2
    have hle := getLatest_after_save c data md now fs
    refine ⟨hle, fun hn => ?_, run_noneSrc_is_replay hle⟩
    rw [hle, jsonRoundTrip_of_norm hn rfl]

/-- C9 (witness): the amended theorem applied on a concrete component — the
empty directory fails with the no-saved-input error, and after a concrete
unprefixed save the replay lookup returns the saved envelope and the replay
flag is set. -/
theorem replay_spec_witness :
    ((run (echoComponent "rw9" "S" "S") .noneSrc {} 9 []).1.error =
        some ("Component " ++ "rw9" ++ " failed: "
          ++ ("No saved inputs found for " ++ "rw9")))
    ∧ (getLatestEnvelope (echoComponent "rw9" "S" "S").sampleDataDir
          DataType.component_input
          (saveSample (echoComponent "rw9" "S" "S") DataType.component_input
            [("t", PyValue.pyStr "x")] mdW none 4 [])
        = some (mkSampleEnvelope (echoComponent "rw9" "S" "S")
            DataType.component_input [("t", PyValue.pyStr "x")] mdW))
    ∧ ((run (echoComponent "rw9" "S" "S") .noneSrc {} 9
          (saveSample (echoComponent "rw9" "S" "S") DataType.component_input
            [("t", PyValue.pyStr "x")] mdW none 4 [])).1.metadata.is_replay = true) := by
  refine ⟨(replay_spec.1 Payload Payload (echoComponent "rw9" "S" "S") {} 9 []
      (by intro e he; cases he)).1, ?_, ?_⟩
  · exact (replay_spec.2 Payload Payload (echoComponent "rw9" "S" "S")
      [("t", PyValue.pyStr "x")] mdW 4 [] {} 9).2.1 rfl
  · exact (replay_spec.2 Payload Payload (echoComponent "rw9" "S" "S")
      [("t", PyValue.pyStr "x")] mdW 4 [] {} 9).2.2

/-! ### C10: persisted schema names and replayability -/

theorem can_process_of_schema_match {c : Component I O} {env : DataEnvelope}
    (h : env.schema_name = some c.inputSchemaName) : can_process c env = (true, none) := by
  simp [can_process, h]

/-- C10: every sample persisted by `_save_sample` carries the component's
declared schema name for its kind — the input-schema name on input samples,
the output-schema name on output samples — and schema names survive the
JSON round trip; an envelope declaring this component's own input-schema
name always passes `can_process`, so in particular the envelope replay
loads from this component's freshly saved input sample passes `can_process`
for that same component. -/
theorem saved_schema_matches :
    (∀ (I O : Type) (c : Component I O) (dt : DataType) (data : Payload)
       (md : ComponentMetadata) (pfx : Option String) (now : Nat) (fs : FS),
       (saveEntry c dt data md pfx now fs).content.schema_name
         = some (if dt = DataType.component_input then c.inputSchemaName
                 else c.outputSchemaName))
    ∧ (∀ (I O : Type) (c : Component I O) (env : DataEnvelope),
        env.schema_name = some c.inputSchemaName → can_process c env = (true, none))
    ∧ (∀ (I O : Type) (c : Component I O) (data : Payload) (md : ComponentMetadata)
        (now : Nat) (fs : FS),
        ∃ env, getLatestEnvelope c.sampleDataDir DataType.component_input
            (saveSample c DataType.component_input data md none now fs) = some env
          ∧ can_process c env = (true, none)) := by
  refine ⟨?_, ?_, ?_⟩
  · intro I O c dt data md pfx now fs
    rfl
  · intro I O c env h
    exact can_process_of_schema_match h
  · intro I O c data md now fs
    exact ⟨_, getLatest_after_save c data md now fs, can_process_of_schema_match rfl⟩

/-- C10 (witness): the schema-pass implication applied at a concrete
freshly built input-sample envelope. -/
theorem saved_schema_matches_witness :
    can_process (echoComponent "w10" "S" "S")
      (mkSampleEnvelope (echoComponent "w10" "S" "S") DataType.component_input [] mdW)
      = (true, none) :=
  saved_schema_matches.2.1 Payload Payload (echoComponent "w10" "S" "S")
    (mkSampleEnvelope (echoComponent "w10" "S" "S") DataType.component_input [] mdW) rfl

end Pudding
